import Mathlib

/-!
Shallow embedding of the cltkv1 tokenization subsystem:
`src/cltkv1/nlp.py` and `src/cltkv1/sentence/sentence.py`.

Python strings are modelled as `List Char` (Python indexes and slices by code
point, which matches positional indexing into the character list).  Fallible
constructors and methods return `Except PyErr _`.  Collaborators that live in
modules outside the two source files (nltk, `cltkv1.utils`,
`cltkv1.tokenizers.*`) are modelled as explicit parameters or constants, each
marked `Modelled from the spec:` in its doc comment.
-/

namespace Cltk

/-! ## Python primitives -/

/-- Positional lookup `l[n]` returning `none` when out of range (Python
`str.__getitem__` restricted to non-negative indices, as used here). -/
def nth {α : Type} : List α → Nat → Option α
  | [], _ => none
  | a :: _, 0 => some a
  | _ :: l, n + 1 => nth l n

/-- Python slice `l[s:e]` for non-negative `s`, `e` (with Python's clamping
semantics at both ends). -/
def pySlice (l : List Char) (s e : Nat) : List Char := (l.take e).drop s

/-- Word character class of Python's regex `\w` (Unicode alphanumerics plus
underscore; the ASCII alphanumerics suffice for every character the claims
exercise, and no claim depends on the exact extent of the class). -/
def pyWordChar (c : Char) : Bool := c.isAlphanum || c = '_'

/-- Whitespace class of Python's regex `\s` (its ASCII members). -/
def pySpace (c : Char) : Bool :=
  c = ' ' || c = '\t' || c = '\n' || c = '\x0b' || c = '\x0c' || c = '\r'

/-- Python `str.lower()` on one character (ASCII case mapping; every language
string the code compares after lowering is ASCII). -/
def pyCharLower (c : Char) : Char :=
  if 'A' ≤ c && c ≤ 'Z' then Char.ofNat (c.toNat + 32) else c

/-- Python `str.lower()`. -/
def pyLower (s : String) : String := ⟨s.data.map pyCharLower⟩

/-! ## nlp.py: the finditer scans used by NLP.analyze -/

/-- Spans of the matches of `re.finditer` for a single-character pattern
(`re.compile(r"\.")` in `NLP.analyze`): one half-open span `(i, i + 1)` per
occurrence of the character `t`, scanning the text left to right from
absolute position `i`. -/
def findChar (t : Char) : List Char → Nat → List (Nat × Nat)
  | [], _ => []
  | c :: cs, i =>
    if c = t then (i, i + 1) :: findChar t cs (i + 1) else findChar t cs (i + 1)

/-- Spans of the matches of `re.finditer(r"\w+", text)` (`NLP.analyze`): the
maximal runs of word characters, found by a left-to-right scan.  `i` is the
current absolute position and `st` carries the start position of the run
currently open, if any. -/
def findRuns (w : Char → Bool) : List Char → Nat → Option Nat → List (Nat × Nat)
  | [], _, none => []
  | [], i, some s => [(s, i)]
  | c :: cs, i, none =>
    if w c then findRuns w cs (i + 1) (some i) else findRuns w cs (i + 1) none
  | c :: cs, i, some s =>
    if w c then findRuns w cs (i + 1) (some s)
    else (s, i) :: findRuns w cs (i + 1) none

/-! ## nlp.py: data model -/

/-- Embedding of the `Word` namedtuple of `nlp.py`; every field defaults to
`None` there, hence the `Option` types. -/
structure Word where
  index_char_start : Option Nat
  index_char_stop : Option Nat
  index_token : Option Nat
  index_sentence : Option Nat
  string : Option (List Char)
  pos : Option String
  scansion : Option String
  deriving Repr, DecidableEq

/-- Embedding of the `Text` namedtuple of `nlp.py`.  The namedtuple defaults
every field to `None`; `NLP.analyze` always supplies `indices_sentences`,
`indices_tokens`, `language` and `raw`, so those four are typed at their
populated type, while `tokens` and `pipeline` keep the `None` default and stay
`Option`-typed. -/
structure Text where
  indices_sentences : List (Nat × Nat)
  indices_tokens : List (Nat × Nat)
  language : String
  tokens : Option (List Word)
  pipeline : Option (List String)
  raw : List Char
  deriving Repr, DecidableEq

/-- Embedding of the `NLP` class state: `NLP.__init__` stores the language and
the (possibly absent) pipeline list. -/
structure NLP where
  language : String
  pipeline : Option (List String)
  deriving Repr, DecidableEq

/-- Embedding of `NLP.analyze`: `indices_sentences` are the spans of the
matches of `re.compile(r"\.")`, `indices_tokens` the spans of the matches of
`re.compile(r"\w+")`; `language` comes from the object, `raw` is the input
text, and the namedtuple fields `tokens` and `pipeline` are left at their
`None` default. -/
def NLP.analyze (self : NLP) (text : List Char) : Text :=
  ⟨findChar '.' text 0, findRuns pyWordChar text 0 none, self.language,
    none, none, text⟩

/-- Embedding of `NLP.get_tokens`: for each pair in `indices_tokens`, slice
`analyzed_text.raw[start:end]`; `self` is unused by the method body. -/
def NLP.get_tokens (_self : NLP) (analyzed_text : Text) : List (List Char) :=
  analyzed_text.indices_tokens.map (fun pr => pySlice analyzed_text.raw pr.1 pr.2)

/-! ## Span-sequence invariants -/

/-- Chained spans: every span starts at or after `lo`, is nonempty, stops by
`hi`, and each span ends before the next one starts. -/
def ChainSpans (lo hi : Nat) : List (Nat × Nat) → Prop
  | [] => True
  | p :: rest => lo ≤ p.1 ∧ p.1 < p.2 ∧ p.2 ≤ hi ∧ ChainSpans p.2 hi rest

/-- The span-sequence invariant of the spec: every span satisfies
`start ≤ stop ≤ len`, and the sequence is strictly increasing by start and
pairwise non-overlapping. -/
def SpanListOK (len : Nat) (spans : List (Nat × Nat)) : Prop :=
  (∀ p ∈ spans, p.1 ≤ p.2 ∧ p.2 ≤ len) ∧
    spans.Pairwise (fun p q => p.1 < q.1 ∧ p.2 ≤ q.1)

theorem chainSpans_mono_lo {hi : Nat} {l : List (Nat × Nat)} {lo lo' : Nat}
    (hle : lo' ≤ lo) (h : ChainSpans lo hi l) : ChainSpans lo' hi l := by
  cases l with
  | nil => trivial
  | cons p rest => exact ⟨Nat.le_trans hle h.1, h.2.1, h.2.2.1, h.2.2.2⟩

theorem chainSpans_mono_hi {l : List (Nat × Nat)} :
    ∀ {lo hi hi' : Nat}, hi ≤ hi' → ChainSpans lo hi l → ChainSpans lo hi' l := by
  induction l with
  | nil => intro _ _ _ _ _; trivial
  | cons p rest ih =>
    intro lo hi hi' hle h
    exact ⟨h.1, h.2.1, Nat.le_trans h.2.2.1 hle, ih hle h.2.2.2⟩

theorem chainSpans_strong {l : List (Nat × Nat)} :
    ∀ {lo hi : Nat}, ChainSpans lo hi l →
      (∀ p ∈ l, lo ≤ p.1 ∧ p.1 < p.2 ∧ p.2 ≤ hi) ∧
        l.Pairwise (fun p q => p.1 < q.1 ∧ p.2 ≤ q.1) := by
  induction l with
  | nil =>
    intro lo hi _
    exact ⟨fun p hp => absurd hp (List.not_mem_nil p), List.Pairwise.nil⟩
  | cons p rest ih =>
    intro lo hi h
    obtain ⟨h1, h2, h3, h4⟩ := h
    obtain ⟨ihb, ihp⟩ := ih h4
    constructor
    · intro q hq
      rcases List.mem_cons.mp hq with rfl | hq'
      · exact ⟨h1, h2, h3⟩
      · have hb := ihb q hq'
        exact ⟨by omega, hb.2.1, hb.2.2⟩
    · refine List.Pairwise.cons (fun q hq => ?_) ihp
      have hb := ihb q hq
      exact ⟨by omega, hb.1⟩

theorem chainSpans_spanListOK {len : Nat} {spans : List (Nat × Nat)}
    (h : ChainSpans 0 len spans) : SpanListOK len spans := by
  obtain ⟨hb, hp⟩ := chainSpans_strong h
  exact ⟨fun p hp' => ⟨Nat.le_of_lt (hb p hp').2.1, (hb p hp').2.2⟩, hp⟩

theorem findChar_chain (t : Char) : ∀ (l : List Char) (i : Nat),
    ChainSpans i (i + l.length) (findChar t l i) := by
  intro l
  induction l with
  | nil => intro i; trivial
  | cons c cs ih =>
    intro i
    by_cases hc : c = t
    · simp only [findChar, if_pos hc, List.length_cons]
      refine ⟨Nat.le_refl i, by omega, by omega, ?_⟩
      exact chainSpans_mono_hi (by omega) (ih (i + 1))
    · simp only [findChar, if_neg hc, List.length_cons]
      exact chainSpans_mono_lo (by omega) (chainSpans_mono_hi (by omega) (ih (i + 1)))

theorem findRuns_chain (w : Char → Bool) : ∀ (l : List Char) (i : Nat),
    ChainSpans i (i + l.length) (findRuns w l i none) ∧
      ∀ s, s < i → ChainSpans s (i + l.length) (findRuns w l i (some s)) := by
  intro l
  induction l with
  | nil =>
    intro i
    refine ⟨trivial, fun s hs => ?_⟩
    exact ⟨Nat.le_refl s, hs, by omega, trivial⟩
  | cons c cs ih =>
    intro i
    constructor
    · by_cases hw : w c = true
      · simp only [findRuns, hw, if_true, List.length_cons]
        exact chainSpans_mono_hi (by omega) ((ih (i + 1)).2 i (by omega))
      · simp only [findRuns, hw, if_false, Bool.false_eq_true, List.length_cons]
        exact chainSpans_mono_lo (by omega)
          (chainSpans_mono_hi (by omega) ((ih (i + 1)).1))
    · intro s hs
      by_cases hw : w c = true
      · simp only [findRuns, hw, if_true, List.length_cons]
        exact chainSpans_mono_hi (by omega) ((ih (i + 1)).2 s (by omega))
      · simp only [findRuns, hw, if_false, Bool.false_eq_true, List.length_cons]
        refine ⟨Nat.le_refl s, hs, by omega, ?_⟩
        exact chainSpans_mono_lo (by omega)
          (chainSpans_mono_hi (by omega) ((ih (i + 1)).1))

theorem nth_map {α β : Type} (f : α → β) : ∀ (l : List α) (n : Nat),
    nth (l.map f) n = (nth l n).map f := by
  intro l
  induction l with
  | nil => intro n; rfl
  | cons a l ih =>
    intro n
    cases n with
    | zero => rfl
    | succ n => simpa [nth, List.map_cons] using ih n

theorem findChar_mem (t : Char) : ∀ (l : List Char) (i : Nat) (p : Nat × Nat),
    p ∈ findChar t l i → i ≤ p.1 ∧ p.2 = p.1 + 1 ∧ nth l (p.1 - i) = some t := by
  intro l
  induction l with
  | nil => intro i p hp; simp [findChar] at hp
  | cons c cs ih =>
    intro i p hp
    by_cases hc : c = t
    · simp only [findChar, if_pos hc] at hp
      rcases List.mem_cons.mp hp with rfl | hp'
      · refine ⟨Nat.le_refl i, rfl, ?_⟩
        simp [Nat.sub_self, nth, hc]
      · obtain ⟨h1, h2, h3⟩ := ih (i + 1) p hp'
        refine ⟨by omega, h2, ?_⟩
        have hd : p.1 - i = (p.1 - (i + 1)) + 1 := by omega
        rw [hd]
        simpa [nth] using h3
    · simp only [findChar, if_neg hc] at hp
      obtain ⟨h1, h2, h3⟩ := ih (i + 1) p hp
      refine ⟨by omega, h2, ?_⟩
      have hd : p.1 - i = (p.1 - (i + 1)) + 1 := by omega
      rw [hd]
      simpa [nth] using h3

theorem findRuns_chars (w : Char → Bool) : ∀ (l : List Char) (i : Nat),
    (∀ p ∈ findRuns w l i none, ∀ j, p.1 ≤ j → j < p.2 →
        ∃ c, nth l (j - i) = some c ∧ w c = true) ∧
      ∀ s, s < i → ∀ p ∈ findRuns w l i (some s), ∀ j, i ≤ j → p.1 ≤ j → j < p.2 →
        ∃ c, nth l (j - i) = some c ∧ w c = true := by
  intro l
  induction l with
  | nil =>
    intro i
    constructor
    · intro p hp; simp [findRuns] at hp
    · intro s _ p hp j hij _ hjp
      simp only [findRuns, List.mem_singleton] at hp
      subst hp
      simp only at hjp
      omega
  | cons c cs ih =>
    intro i
    constructor
    · intro p hp j hpj hjp
      by_cases hw : w c = true
      · simp only [findRuns, hw, if_true] at hp
        have hchain := (findRuns_chain w cs (i + 1)).2 i (by omega)
        have hb := (chainSpans_strong hchain).1 p hp
        rcases Nat.lt_or_ge j (i + 1) with hj | hj
        · have hji : j = i := by omega
          subst hji
          exact ⟨c, by simp [Nat.sub_self, nth], hw⟩
        · obtain ⟨c', hc', hwc'⟩ := (ih (i + 1)).2 i (by omega) p hp j hj hpj hjp
          refine ⟨c', ?_, hwc'⟩
          have hd : j - i = (j - (i + 1)) + 1 := by omega
          rw [hd]
          simpa [nth] using hc'
      · simp only [findRuns, hw, if_false, Bool.false_eq_true] at hp
        have hchain := (findRuns_chain w cs (i + 1)).1
        have hb := (chainSpans_strong hchain).1 p hp
        obtain ⟨c', hc', hwc'⟩ := (ih (i + 1)).1 p hp j hpj hjp
        refine ⟨c', ?_, hwc'⟩
        have hd : j - i = (j - (i + 1)) + 1 := by omega
        rw [hd]
        simpa [nth] using hc'
    · intro s hs p hp j hij hpj hjp
      by_cases hw : w c = true
      · simp only [findRuns, hw, if_true] at hp
        rcases Nat.lt_or_ge j (i + 1) with hj | hj
        · have hji : j = i := by omega
          subst hji
          exact ⟨c, by simp [Nat.sub_self, nth], hw⟩
        · obtain ⟨c', hc', hwc'⟩ := (ih (i + 1)).2 s (by omega) p hp j hj hpj hjp
          refine ⟨c', ?_, hwc'⟩
          have hd : j - i = (j - (i + 1)) + 1 := by omega
          rw [hd]
          simpa [nth] using hc'
      · simp only [findRuns, hw, if_false, Bool.false_eq_true] at hp
        rcases List.mem_cons.mp hp with rfl | hp'
        · simp only at hjp
          omega
        · have hchain := (findRuns_chain w cs (i + 1)).1
          have hb := (chainSpans_strong hchain).1 p hp'
          obtain ⟨c', hc', hwc'⟩ := (ih (i + 1)).1 p hp' j (by omega) hjp
          refine ⟨c', ?_, hwc'⟩
          have hd : j - i = (j - (i + 1)) + 1 := by omega
          rw [hd]
          simpa [nth] using hc'

/-! ## sentence.py: errors and external collaborators -/

/-- Errors raised by the embedded sentence-tokenizer code: `exception` is the
bare `raise Exception` of `BaseRegexSentenceTokenizer.__init__`;
`fileNotFoundError` carries the message of the re-raised `FileNotFoundError`
(the spec's `ModelNotFoundError`); `attributeError` names the attribute whose
access failed. -/
inductive PyErr where
  | exception : PyErr
  | fileNotFoundError : String → PyErr
  | attributeError : String → PyErr
  deriving Repr, DecidableEq

/-- Modelled from the spec: a language-variable table (`LatinLanguageVars`,
`GreekLanguageVars`, `SanskritLanguageVars` come from `cltkv1.tokenizers.*`,
which is not under `src/`): a list of sentence-terminator characters, each a
one-character string. -/
structure LanguageVars where
  sent_end_chars : List (List Char)

/-- Modelled from the spec: `LatinLanguageVars()` as instantiated by
`TokenizeSentence.__init__`; its concrete terminator table is external to
`src/` and immaterial to every claim. -/
def LatinLanguageVars : LanguageVars := ⟨[['.'], ['?'], ['!']]⟩

/-- Modelled from the spec: a loaded trained-model sentence tokenizer (an
unpickled nltk `PunktSentenceTokenizer` artifact).  Its `tokenize` behaviour
depends on the `_lang_vars` override installed by
`BaseSentenceTokenizer.tokenize` (`none` keeps the model's own table). -/
structure PunktModel where
  tokenize : Option LanguageVars → List Char → List (List Char)

/-- Modelled from the spec: the collaborators of
`TokenizeSentence.tokenize_sentences` that live outside `src/`: the untrained
nltk `PunktSentenceTokenizer()` default, and the terminator tables of
`GreekLanguageVars` and `SanskritLanguageVars`. -/
structure Externals where
  punktDefault : List Char → List (List Char)
  greek_sent_end_chars : List (List Char)
  sanskrit_sent_end_chars : List (List Char)

/-- Modelled from the spec: `CLTK_DATA_DIR` (from `cltkv1.utils`, not under
`src/`), the root directory of the local model store. -/
def CLTK_DATA_DIR : String := "~/cltk_data"

/-- Embedding of `BaseSentenceTokenizer._get_models_path`. -/
def get_models_path (language : String) : String :=
  CLTK_DATA_DIR ++ "/" ++ language ++ "/model/" ++ language
    ++ "_models_cltk/tokenizers/sentence"

/-- Modelled from the spec: `open_pickle` (from
`cltkv1.utils.file_operations`, not under `src/`) reads exactly one artifact
per path from the local model store and fails with `FileNotFoundError` when
the artifact is absent.  The store is a map from path to artifact;
`os.path.expanduser` and `os.path.join` are folded into plain path strings. -/
def open_pickle (store : String → Option PunktModel) (path : String) :
    Except PyErr PunktModel :=
  match store path with
  | some m => .ok m
  | none => .error (.fileNotFoundError path)

/-! ## sentence.py: the trained-model (punkt) variant -/

/-- State of a successfully constructed `BasePunktSentenceTokenizer`
(respectively of the `TokenizeSentence` subclass); attributes the constructor
may leave unset are `Option`-typed. -/
structure BasePunkt where
  language : Option String
  language_old : Option String
  lang_vars : Option LanguageVars
  models_path : Option String
  model : Option PunktModel

/-- Message of the `FileNotFoundError` re-raised by
`BasePunktSentenceTokenizer.__init__` (the class attribute referenced there is
always the base class's, even from the subclass). -/
def missing_models_message : String :=
  "BasePunktSentenceTokenizer requires a language model."

/-- Embedding of `BasePunktSentenceTokenizer.__init__`.  `language_old` is
assigned only when the incoming language is exactly `"lat"` (the check runs
before `super().__init__` lower-cases the stored language; on the only branch
that later reads the lowered value, `"lat"`, lowering is the identity, so the
lowering is applied just where the stored state is built).  When the language
is truthy the constructor builds the models path and formats the pickle file
name from `self.language_old`; reading that attribute when it was never
assigned raises `AttributeError`.  A `FileNotFoundError` from `open_pickle`
is caught and re-raised with `missing_models_message`. -/
def basePunktInit (store : String → Option PunktModel)
    (language : Option String) (lang_vars : Option LanguageVars) :
    Except PyErr BasePunkt :=
  let language_old : Option String :=
    if language = some "lat" then some "latin" else none
  match language with
  | none => .ok ⟨none, language_old, lang_vars, none, none⟩
  | some lang0 =>
    if lang0 = "" then .ok ⟨some lang0, language_old, lang_vars, none, none⟩
    else
      let models_path := get_models_path (pyLower lang0)
      match language_old with
      | none => .error (.attributeError "language_old")
      | some old =>
        match open_pickle store (models_path ++ "/" ++ old ++ "_punkt.pickle") with
        | .ok m =>
          .ok ⟨some (pyLower lang0), some old, lang_vars, some models_path, some m⟩
        | .error _ => .error (.fileNotFoundError missing_models_message)

/-- The store path consulted when constructing the punkt tokenizer for
`"lat"`. -/
def lat_pickle_path : String := get_models_path "lat" ++ "/latin_punkt.pickle"

/-! ## sentence.py: the regex variant -/

/-- Embedding of `"|".join(strings)`. -/
def joinPipe : List (List Char) → List Char
  | [] => []
  | [s] => s
  | s :: rest => s ++ '|' :: joinPipe rest

/-- The lookbehind split pattern string `(?<=[regex])\s` built by
`BaseRegexSentenceTokenizer.__init__`. -/
def lookbehindPattern (regex : List Char) : List Char :=
  ['(', '?', '<', '=', '['] ++ regex ++ [']', ')', '\\', 's']

/-- Whether the character preceding the current position (if any) belongs to
the lookbehind character class `[regex]`; the class matches exactly the
characters occurring in the `regex` string. -/
def prevInClass (ends : List Char) : Option Char → Bool
  | none => false
  | some p => ends.contains p

/-- Embedding of `re.split(pattern, text)` for `pattern = (?<=[regex])\s`:
scan left to right; a whitespace character whose predecessor in the original
text is in the class ends the current segment and is consumed (the lookbehind
itself consumes nothing, so the consumed whitespace is the predecessor seen at
the next position). -/
def regexSplitAux (ends : List Char) :
    List Char → Option Char → List Char → List (List Char)
  | [], _, acc => [acc.reverse]
  | c :: cs, prev, acc =>
    if pySpace c && prevInClass ends prev then
      acc.reverse :: regexSplitAux ends cs (some c) []
    else
      regexSplitAux ends cs (some c) (c :: acc)

/-- Embedding of `re.split((?<=[ends])\s, text)`. -/
def regexSplit (ends : List Char) (text : List Char) : List (List Char) :=
  regexSplitAux ends text none []

/-- Embedding of `BaseSentenceTokenizer.__init__`: the `language` attribute is
assigned (lower-cased) only when the argument is truthy. -/
def baseInitLanguage (language : Option String) : Option String :=
  match language with
  | some l => if l = "" then none else some (pyLower l)
  | none => none

/-- State of a successfully constructed `BaseRegexSentenceTokenizer`. -/
structure RegexTok where
  language : Option String
  sent_end_chars : List (List Char)
  sent_end_chars_regex : List Char
  pattern : List Char
  deriving Repr, DecidableEq

/-- Embedding of `BaseRegexSentenceTokenizer.__init__`: a falsy
`sent_end_chars` (absent or empty) triggers the bare `raise Exception`;
otherwise the terminator list, the `"|"`-joined regex string and the
lookbehind pattern are stored. -/
def baseRegexInit (language : Option String)
    (sent_end_chars : Option (List (List Char))) : Except PyErr RegexTok :=
  match sent_end_chars with
  | some (c :: cs) =>
    .ok ⟨baseInitLanguage language, c :: cs, joinPipe (c :: cs),
      lookbehindPattern (joinPipe (c :: cs))⟩
  | _ => .error .exception

/-- Embedding of `BaseRegexSentenceTokenizer.tokenize`:
`re.split(self.pattern, text)`, returning the bare substrings. -/
def baseRegexTokenize (self : RegexTok) (text : List Char) : List (List Char) :=
  regexSplit self.sent_end_chars_regex text

/-! ## sentence.py: TokenizeSentence -/

/-- State of a constructed `TokenizeSentence`: the lower-cased language and,
for the Latin branch only, the attributes inherited from the punkt
super-constructor. -/
structure TokSent where
  language : String
  lang_vars : Option LanguageVars
  model : Option PunktModel

/-- Embedding of `TokenizeSentence.__init__`: lower-case the language; only
for `"latin"` instantiate `LatinLanguageVars` and call the punkt
super-constructor (which itself fails, see `basePunktInit`); any other
language is stored without touching the model store. -/
def tokenizeSentenceInit (store : String → Option PunktModel)
    (language : String) : Except PyErr TokSent :=
  let lang := pyLower language
  if lang = "latin" then
    match basePunktInit store (some "latin") (some LatinLanguageVars) with
    | .ok b => .ok ⟨lang, b.lang_vars, b.model⟩
    | .error e => .error e
  else
    .ok ⟨lang, none, none⟩

/-- Embedding of `BaseSentenceTokenizer.tokenize`: run `self.model` with the
`_lang_vars` override from `self.lang_vars`; when the model is `None` (or was
never assigned) the call on it raises `AttributeError`. -/
def baseTokenize (self : TokSent) (text : List Char) :
    Except PyErr (List (List Char)) :=
  match self.model with
  | none => .error (.attributeError "tokenize")
  | some m => .ok (m.tokenize self.lang_vars text)

/-- The `INDIAN_LANGUAGES` constant of `sentence.py`. -/
def INDIAN_LANGUAGES : List String :=
  ["bengali", "hindi", "marathi", "sanskrit", "telugu"]

/-- Embedding of `TokenizeSentence.tokenize_sentences`: Latin dispatches to
the punkt super-tokenizer; Greek and the Indic languages rebuild the regex
pattern from the external terminator tables and `re.split` with it; every
other language uses the untrained nltk `PunktSentenceTokenizer()` default.
The `assert isinstance(..., str)` is discharged by typing; the assignments to
`self.sent_end_chars`/`self.pattern` on the regex branches only feed the
`re.split` in the same call and are kept local. -/
def tokenize_sentences (ext : Externals) (self : TokSent)
    (untokenized_string : List Char) : Except PyErr (List (List Char)) :=
  if self.language = "latin" then
    baseTokenize self untokenized_string
  else if self.language = "greek" then
    .ok (regexSplit (joinPipe ext.greek_sent_end_chars) untokenized_string)
  else if self.language ∈ INDIAN_LANGUAGES then
    .ok (regexSplit (joinPipe ext.sanskrit_sent_end_chars) untokenized_string)
  else
    .ok (ext.punktDefault untokenized_string)

/-- Embedding of `TokenizeSentence.tokenize`: the alias simply calls
`tokenize_sentences`, ignoring its `model` parameter. -/
def TokenizeSentence_tokenize (ext : Externals) (self : TokSent)
    (untokenized_string : List Char) (_model : Option PunktModel) :
    Except PyErr (List (List Char)) :=
  tokenize_sentences ext self untokenized_string

/-! ## No-boundary behaviour of the regex split -/

/-- No position of `l` is a split point of `regexSplitAux` when scanned with
`prev` as the character preceding `l` in the original text: no whitespace
character of `l` is preceded by a class character. -/
def noSplitFrom (ends : List Char) : Option Char → List Char → Bool
  | _, [] => true
  | prev, c :: cs =>
    !(pySpace c && prevInClass ends prev) && noSplitFrom ends (some c) cs

theorem regexSplitAux_nosplit (ends : List Char) :
    ∀ (l : List Char) (prev : Option Char) (acc : List Char),
      noSplitFrom ends prev l = true →
      regexSplitAux ends l prev acc = [acc.reverse ++ l] := by
  intro l
  induction l with
  | nil => intro prev acc _; simp [regexSplitAux]
  | cons c cs ih =>
    intro prev acc h
    simp only [noSplitFrom, Bool.and_eq_true, Bool.not_eq_true'] at h
    obtain ⟨h1, h2⟩ := h
    simp only [regexSplitAux, h1, Bool.false_eq_true, if_false]
    rw [ih (some c) (c :: acc) h2]
    simp

theorem findChar_not_mem (t : Char) : ∀ (l : List Char) (i : Nat),
    t ∉ l → findChar t l i = [] := by
  intro l
  induction l with
  | nil => intro i _; rfl
  | cons c cs ih =>
    intro i h
    have hct : ¬ c = t := by
      intro e
      subst e
      exact h (List.mem_cons_self c cs)
    have h2 : t ∉ cs := fun hm => h (List.mem_cons_of_mem c hm)
    simp only [findChar, if_neg hct]
    exact ih (i + 1) h2

/-! ## Claim theorems -/

/-- C1: for every Document returned by `NLP.analyze`, the sentence-span
sequence and the token-span sequence are each sorted strictly increasing by
start offset, pairwise non-overlapping, and every span satisfies
`start ≤ stop ≤ len(raw_text)`. -/
theorem C1_span_invariant (self : NLP) (text : List Char) :
    SpanListOK (self.analyze text).raw.length (self.analyze text).indices_sentences ∧
      SpanListOK (self.analyze text).raw.length (self.analyze text).indices_tokens := by
  show SpanListOK text.length (findChar '.' text 0) ∧
    SpanListOK text.length (findRuns pyWordChar text 0 none)
  constructor
  · exact chainSpans_spanListOK
      (chainSpans_mono_hi (by omega) (findChar_chain '.' text 0))
  · exact chainSpans_spanListOK
      (chainSpans_mono_hi (by omega) ((findRuns_chain pyWordChar text 0).1))

/-- C2: `NLP.get_tokens` preserves the token count of the analyzed Document,
and its i-th string is `raw_text` sliced at the i-th token span. -/
theorem C2_round_trip (self : NLP) (text : List Char) :
    (NLP.get_tokens self (self.analyze text)).length
        = (self.analyze text).indices_tokens.length ∧
      ∀ (i s e : Nat), nth (self.analyze text).indices_tokens i = some (s, e) →
        nth (NLP.get_tokens self (self.analyze text)) i
          = some (pySlice (self.analyze text).raw s e) := by
  constructor
  · exact List.length_map _ _
  · intro i s e h
    have hmap : NLP.get_tokens self (self.analyze text)
        = (self.analyze text).indices_tokens.map
            (fun pr => pySlice (self.analyze text).raw pr.1 pr.2) := rfl
    rw [hmap, nth_map, h]
    rfl

/-- C2 witness: a concrete round trip for the text "ab". -/
theorem C2_witness :
    nth (NLP.get_tokens ⟨"latin", none⟩ (NLP.analyze ⟨"latin", none⟩ ['a', 'b'])) 0
      = some (pySlice (NLP.analyze ⟨"latin", none⟩ ['a', 'b']).raw 0 2) :=
  (C2_round_trip ⟨"latin", none⟩ ['a', 'b']).2 0 0 2 rfl

/-- C3 counterexample: for the text "Hi." the single token span `[0, 2)` is
not nested within any sentence span (the only sentence span is `[2, 3)`, the
span of the period itself). -/
theorem C3_counterexample :
    ¬ ∀ p ∈ (NLP.analyze ⟨"latin", none⟩ ['H', 'i', '.']).indices_tokens,
        ∃ q ∈ (NLP.analyze ⟨"latin", none⟩ ['H', 'i', '.']).indices_sentences,
          q.1 ≤ p.1 ∧ p.2 ≤ q.2 := by
  decide

/-- C3 amended: every token span of an analyzed Document is disjoint from
every sentence span (sentence spans mark the terminator characters, which are
never word characters, so no token span is nested within — or even meets —
a sentence span). -/
theorem C3_token_sentence_disjoint (self : NLP) (text : List Char)
    (p q : Nat × Nat)
    (hp : p ∈ (self.analyze text).indices_tokens)
    (hq : q ∈ (self.analyze text).indices_sentences) :
    q.2 ≤ p.1 ∨ p.2 ≤ q.1 := by
  have hp' : p ∈ findRuns pyWordChar text 0 none := hp
  have hq' : q ∈ findChar '.' text 0 := hq
  obtain ⟨_, hq2, hqat⟩ := findChar_mem '.' text 0 q hq'
  by_contra hcon
  push_neg at hcon
  obtain ⟨h1, h2⟩ := hcon
  obtain ⟨c, hcat, hcw⟩ :=
    (findRuns_chars pyWordChar text 0).1 p hp' q.1 (by omega) (by omega)
  rw [Nat.sub_zero] at hcat hqat
  rw [hqat] at hcat
  have hc : c = '.' := (Option.some.inj hcat).symm
  subst hc
  exact absurd hcw (by decide)

/-- C3 witness: the disjointness at the text "Hi.". -/
theorem C3_witness :
    (0, 2) ∈ (NLP.analyze ⟨"latin", none⟩ ['H', 'i', '.']).indices_tokens ∧
      (2, 3) ∈ (NLP.analyze ⟨"latin", none⟩ ['H', 'i', '.']).indices_sentences ∧
      (((2, 3) : Nat × Nat).2 ≤ ((0, 2) : Nat × Nat).1 ∨
        ((0, 2) : Nat × Nat).2 ≤ ((2, 3) : Nat × Nat).1) :=
  ⟨by decide, by decide,
    C3_token_sentence_disjoint ⟨"latin", none⟩ ['H', 'i', '.'] (0, 2) (2, 3)
      (by decide) (by decide)⟩

/-- C4 counterexample: for the input "A. B." with terminator set containing
only ".", the regex variant's `tokenize` returns the bare substrings "A." and
"B." — a list of strings, with no offsets recovered — contradicting the
claimed span output `[[0,2],[3,5]]`. -/
theorem C4_counterexample :
    (baseRegexInit none (some [['.']])).map
        (fun st => baseRegexTokenize st ['A', '.', ' ', 'B', '.'])
      = .ok [['A', '.'], ['B', '.']] := rfl

/-- C4 amended: for input "A. B." with terminator set containing only ".",
the regex variant's `tokenize` returns the list of substrings ["A.", "B."];
it does not recover offsets. -/
theorem C4_regex_substrings (language : Option String) (st : RegexTok)
    (h : baseRegexInit language (some [['.']]) = .ok st) :
    baseRegexTokenize st ['A', '.', ' ', 'B', '.'] = [['A', '.'], ['B', '.']] := by
  have h' : (Except.ok ⟨baseInitLanguage language, [['.']], ['.'],
      lookbehindPattern ['.']⟩ : Except PyErr RegexTok) = Except.ok st := h
  cases Except.ok.inj h'
  rfl

/-- C4 witness: the amended claim evaluated on the constructed tokenizer. -/
theorem C4_witness :
    baseRegexTokenize
        ⟨baseInitLanguage none, [['.']], ['.'], lookbehindPattern ['.']⟩
        ['A', '.', ' ', 'B', '.'] = [['A', '.'], ['B', '.']] :=
  C4_regex_substrings none _ rfl

/-- C5 counterexample: constructing the punkt tokenizer for "greek" with an
empty model store fails with `AttributeError` (the `language_old` attribute is
only ever assigned for "lat"), not with the missing-model
`FileNotFoundError`. -/
theorem C5_counterexample :
    basePunktInit (fun _ => none) (some "greek") none
        = .error (.attributeError "language_old") ∧
      PyErr.attributeError "language_old"
        ≠ PyErr.fileNotFoundError missing_models_message := by
  exact ⟨rfl, by decide⟩

theorem basePunkt_lat_missing (store : String → Option PunktModel)
    (lv : Option LanguageVars) (h : store lat_pickle_path = none) :
    basePunktInit store (some "lat") lv
      = .error (.fileNotFoundError missing_models_message) := by
  have e : basePunktInit store (some "lat") lv
      = (match open_pickle store lat_pickle_path with
          | .ok m => .ok ⟨some "lat", some "latin", lv,
              some (get_models_path "lat"), some m⟩
          | .error _ => .error (.fileNotFoundError missing_models_message)) := rfl
  rw [e]
  unfold open_pickle
  rw [h]

theorem basePunkt_not_lat (store : String → Option PunktModel)
    (lv : Option LanguageVars) (lang : String)
    (h1 : lang ≠ "lat") (h2 : lang ≠ "") :
    basePunktInit store (some lang) lv = .error (.attributeError "language_old") := by
  simp [basePunktInit, h1, h2]

theorem tokenizeSentence_latin_err (store : String → Option PunktModel) :
    tokenizeSentenceInit store "latin" = .error (.attributeError "language_old") := by
  have e : tokenizeSentenceInit store "latin"
      = (match basePunktInit store (some "latin") (some LatinLanguageVars) with
          | .ok b => .ok ⟨"latin", b.lang_vars, b.model⟩
          | .error err => .error err) := rfl
  rw [e, basePunkt_not_lat store (some LatinLanguageVars) "latin"
    (by decide) (by decide)]

/-- C5 amended: only the legacy name "lat" reaches the model store; for it a
missing artifact raises the missing-model `FileNotFoundError` (the spec's
`ModelNotFoundError`) with the remediation message, and no detector is
returned.  For every other truthy language the constructor fails with
`AttributeError` before the store is consulted — so no partially-functional
detector is ever returned, and in particular `TokenizeSentence("latin")`
always fails with `AttributeError`. -/
theorem C5_missing_model (store : String → Option PunktModel) :
    (∀ lv, store lat_pickle_path = none →
        basePunktInit store (some "lat") lv
          = .error (.fileNotFoundError missing_models_message)) ∧
      (∀ lv (lang : String), lang ≠ "lat" → lang ≠ "" →
        basePunktInit store (some lang) lv
          = .error (.attributeError "language_old")) ∧
      tokenizeSentenceInit store "latin" = .error (.attributeError "language_old") :=
  ⟨fun lv h => basePunkt_lat_missing store lv h,
    fun lv lang h1 h2 => basePunkt_not_lat store lv lang h1 h2,
    tokenizeSentence_latin_err store⟩

/-- C5 witness: the amended claim evaluated against an empty model store. -/
theorem C5_witness :
    basePunktInit (fun _ => none) (some "lat") none
        = .error (.fileNotFoundError missing_models_message) ∧
      basePunktInit (fun _ => none) (some "bengali") none
        = .error (.attributeError "language_old") ∧
      tokenizeSentenceInit (fun _ => none) "latin"
        = .error (.attributeError "language_old") :=
  ⟨(C5_missing_model (fun _ => none)).1 none rfl,
    (C5_missing_model (fun _ => none)).2.1 none "bengali" (by decide) (by decide),
    (C5_missing_model (fun _ => none)).2.2⟩

/-- C6: constructing the regex variant with a missing or empty terminator
list fails with the configuration error (the code's bare `raise Exception`);
with a non-empty list it succeeds and stores the terminator list, the joined
regex string and the lookbehind split pattern. -/
theorem C6_configuration (language : Option String) :
    baseRegexInit language none = .error .exception ∧
      baseRegexInit language (some []) = .error .exception ∧
      ∀ (c : List Char) (cs : List (List Char)), ∃ st : RegexTok,
        baseRegexInit language (some (c :: cs)) = .ok st ∧
          st.sent_end_chars = c :: cs ∧
          st.sent_end_chars_regex = joinPipe (c :: cs) ∧
          st.pattern = lookbehindPattern (joinPipe (c :: cs)) :=
  ⟨rfl, rfl, fun _ _ => ⟨_, rfl, rfl, rfl, rfl⟩⟩

/-- C7 counterexample: `analyze` applied to the empty string returns a Text
whose span sequences are empty but whose `tokens` (words) field is `None`,
not an empty sequence. -/
theorem C7_counterexample :
    ¬ ((NLP.analyze ⟨"latin", none⟩ []).indices_sentences = [] ∧
        (NLP.analyze ⟨"latin", none⟩ []).indices_tokens = [] ∧
        (NLP.analyze ⟨"latin", none⟩ []).tokens = some []) := by
  decide

/-- C7 amended: for every language, `analyze ""` returns without error a Text
with empty sentence-span and token-span sequences, whose `tokens` (words)
field is left unpopulated (`None`), as is `pipeline`. -/
theorem C7_empty_input (self : NLP) :
    (self.analyze []).indices_sentences = [] ∧
      (self.analyze []).indices_tokens = [] ∧
      (self.analyze []).tokens = none ∧
      (self.analyze []).pipeline = none :=
  ⟨rfl, rfl, rfl, rfl⟩

/-- C8 counterexample: for the non-empty boundary-free text "abc", the
sentence-index sequence of the analyzed Document is empty — not a single span
`[0, 3)` covering the whole text. -/
theorem C8_counterexample :
    (NLP.analyze ⟨"latin", none⟩ ['a', 'b', 'c']).indices_sentences = [] ∧
      (NLP.analyze ⟨"latin", none⟩ ['a', 'b', 'c']).indices_sentences
        ≠ [(0, 3)] := by
  decide

/-- C8 amended: on a non-empty text with no detected boundary, the regex
sentence tokenizer returns exactly one segment, the whole text; the
sentence-index sequence of `analyze`, by contrast, is empty for any text
containing no "." (it records terminator positions, not covering sentence
extents). -/
theorem C8_no_boundary (self : NLP) (ends : List Char) (text : List Char)
    (_hne : text ≠ []) (hdot : '.' ∉ text)
    (hns : noSplitFrom ends none text = true) :
    regexSplit ends text = [text] ∧ (self.analyze text).indices_sentences = [] := by
  constructor
  · have h := regexSplitAux_nosplit ends text none [] hns
    simpa [regexSplit] using h
  · exact findChar_not_mem '.' text 0 hdot

/-- C8 witness: the amended claim at the text "ab" with terminator ".". -/
theorem C8_witness :
    regexSplit ['.'] ['a', 'b'] = [['a', 'b']] ∧
      (NLP.analyze ⟨"latin", none⟩ ['a', 'b']).indices_sentences = [] :=
  C8_no_boundary ⟨"latin", none⟩ ['.'] ['a', 'b'] (by decide) (by decide) rfl

/-- C9 counterexample: a language registered nowhere in the code ("klingon")
does not raise — `tokenize_sentences` returns the default detector's result
(there is no `UnsupportedLanguageError` anywhere in the code). -/
theorem C9_counterexample :
    tokenize_sentences ⟨fun s0 => [s0], [], []⟩ ⟨"klingon", none, none⟩ ['a']
      = .ok [['a']] := rfl

/-- C9 amended: every language absent from the dispatch table (not Latin, not
Greek, not one of the Indic languages) is tokenized with the generic default
Punkt detector and returns without raising; no language raises
`UnsupportedLanguageError`, which does not exist in the code. -/
theorem C9_default_fallback (ext : Externals) (self : TokSent) (s : List Char)
    (h1 : self.language ≠ "latin") (h2 : self.language ≠ "greek")
    (h3 : self.language ∉ INDIAN_LANGUAGES) :
    tokenize_sentences ext self s = .ok (ext.punktDefault s) := by
  simp [tokenize_sentences, h1, h2, h3]

/-- C9 witness: the generic default applied to an unmapped language. -/
theorem C9_witness :
    tokenize_sentences ⟨fun s0 => [s0], [], []⟩ ⟨"english", none, none⟩ ['h', 'i']
      = .ok [['h', 'i']] :=
  C9_default_fallback ⟨fun s0 => [s0], [], []⟩ ⟨"english", none, none⟩ ['h', 'i']
    (by decide) (by decide) (by decide)

/-- C10: `TokenizeSentence.tokenize` returns exactly the result of
`TokenizeSentence.tokenize_sentences` on the same input, for every state,
input string and (ignored) model argument. -/
theorem C10_tokenize_alias (ext : Externals) (self : TokSent)
    (s : List Char) (model : Option PunktModel) :
    TokenizeSentence_tokenize ext self s model = tokenize_sentences ext self s := rfl

end Cltk
